import Mathlib

/-!
Shallow embedding of the directory lookup service (single-file FastAPI +
SQLAlchemy application).  The relational store is modelled as four lists held
in a `Store`; each endpoint handler becomes a pure function over the store.
SQL three-valued logic on nullable columns is modelled with `Option`: a
comparison against a NULL column never selects the row, matching SQLite
semantics for `=`, `IN` and arithmetic on NULL.
-/

namespace RestApi

/-- Table `buildings`: id, address (NOT NULL), nullable lat/lon (`Float`
columns, idealised as rationals). -/
structure Building where
  id : Int
  address : String
  lat : Option ℚ
  lon : Option ℚ
deriving DecidableEq, Repr

/-- Table `activities`: id, name (NOT NULL), nullable self-referential
`parent_id`. -/
structure Activity where
  id : Int
  name : String
  parent_id : Option Int
deriving DecidableEq, Repr

/-- Table `organizations`: id, name (NOT NULL), phones (comma separated
text), nullable `building_id`. -/
structure Organization where
  id : Int
  name : String
  phones : String
  building_id : Option Int
deriving DecidableEq, Repr

/-- Link table `organization_activities`: nullable foreign keys, as in the
schema (neither column is declared NOT NULL). -/
structure OrganizationActivity where
  id : Int
  organization_id : Option Int
  activity_id : Option Int
deriving DecidableEq, Repr

/-- The relational store (the SQLite database): rows in natural retrieval
order. -/
structure Store where
  buildings : List Building
  activities : List Activity
  organizations : List Organization
  organization_activities : List OrganizationActivity
deriving DecidableEq, Repr

/-- `orgs_by_building`: `db.query(Organization).filter(Organization.building_id
== building_id).all()`.  A NULL `building_id` never compares equal. -/
def orgs_by_building (db : Store) (building_id : Int) : List Organization :=
  db.organizations.filter (fun o => decide (o.building_id = some building_id))

/-- `orgs_by_activity` (endpoint `/organizations/by_activity/{activity_id}`):
select link rows whose `activity_id` equals the given id, project their
`organization_id`, then select organizations whose id is IN that list.
No tree traversal happens here. -/
def orgs_by_activity (db : Store) (activity_id : Int) : List Organization :=
  let org_ids := (db.organization_activities.filter
      (fun l => decide (l.activity_id = some activity_id))).map
      (fun l => l.organization_id)
  db.organizations.filter (fun o => decide (some o.id ∈ org_ids))

/-- The WHERE clause of `orgs_by_location`:
`((Building.lat - lat) ** 2 + (Building.lon - lon) ** 2) ** 0.5 <= radius`.
For a non-negative radius, `sqrt d2 <= radius` is equivalent to
`d2 <= radius ^ 2` (lemma `sqrt_le_iff_sq` below), which is the form used
here so the predicate stays decidable over ℚ.  A NULL coordinate makes the
whole SQL expression NULL, which never satisfies the filter. -/
def buildingWithin (b : Building) (lat lon radius : ℚ) : Bool :=
  match b.lat, b.lon with
  | some blat, some blon =>
      decide ((blat - lat) ^ 2 + (blon - lon) ^ 2 ≤ radius ^ 2)
  | _, _ => false

/-- `orgs_by_location`: keep the buildings passing the radius filter, then
concatenate each kept building's `organizations` relationship (the
organizations whose `building_id` equals that building's id). -/
def orgs_by_location (db : Store) (lat lon radius : ℚ) : List Organization :=
  let buildings := db.buildings.filter (fun b => buildingWithin b lat lon radius)
  buildings.flatMap
    (fun b => db.organizations.filter (fun o => decide (o.building_id = some b.id)))

/-- `get_organization`: `.first()` on the id filter; `None` raises
`HTTPException(status_code=404)`, modelled as `Except.error 404`. -/
def get_organization (db : Store) (org_id : Int) : Except Nat Organization :=
  match db.organizations.find? (fun o => decide (o.id = org_id)) with
  | some o => Except.ok o
  | none => Except.error 404

/-- `startsWith sub s`: `sub` is a character-wise leading segment of `s`. -/
def startsWith : List Char → List Char → Bool
  | [], _ => true
  | _ :: _, [] => false
  | a :: sub, b :: s => a == b && startsWith sub s

/-- `hasSub sub s`: `sub` occurs contiguously in `s`; this is the SQL
pattern `%sub%` (LIKE metacharacters inside `sub` are not modelled). -/
def hasSub (sub : List Char) : List Char → Bool
  | [] => startsWith sub []
  | c :: rest => startsWith sub (c :: rest) || hasSub sub rest

/-- Case folding for `ilike`. -/
def lowerStr (s : String) : List Char := s.data.map Char.toLower

/-- `orgs_by_name`: `Organization.name.ilike(f"%{name}%")` — case-insensitive
substring match. -/
def orgs_by_name (db : Store) (name : String) : List Organization :=
  db.organizations.filter (fun o => hasSub (lowerStr name) (lowerStr o.name))

/-- `get_descendants` inside `search_by_activity_tree`: depth-capped
descent; `if depth > 2: return []`, else the node itself followed by the
recursive results over its children in store order. -/
def get_descendants (db : Store) (act_id : Int) (depth : Nat) : List Int :=
  if h : depth > 2 then []
  else
    let children := db.activities.filter (fun a => decide (a.parent_id = some act_id))
    act_id :: children.flatMap (fun child => get_descendants db child.id (depth + 1))
termination_by 3 - depth
decreasing_by omega

/-- `search_by_activity_tree` (endpoint `/activities/search`): run
`get_descendants` from the given id (depth 0), select link rows whose
`activity_id` is IN that id list, project organization ids, select the
organizations whose id is IN those. -/
def search_by_activity_tree (db : Store) (activity_id : Int) : List Organization :=
  let ids := get_descendants db activity_id 0
  let org_ids := (db.organization_activities.filter
      (fun l => match l.activity_id with
        | some a => decide (a ∈ ids)
        | none => false)).map (fun l => l.organization_id)
  db.organizations.filter (fun o => decide (some o.id ∈ org_ids))

/-- `collect_tree` inside `get_activity_tree`: `if depth >= max_depth:
return []`, else for every activity whose `parent_id` equals the current
parent, emit it and then its recursive rendering. -/
def collect_tree (db : Store) (max_depth : Int) (parent_id : Option Int)
    (depth : Int) : List Activity :=
  if h : depth ≥ max_depth then []
  else
    let acts := db.activities.filter (fun a => decide (a.parent_id = parent_id))
    acts.flatMap (fun act => act :: collect_tree db max_depth (some act.id) (depth + 1))
termination_by (max_depth - depth).toNat
decreasing_by omega

/-- `get_activity_tree` (endpoint `/activities/tree`): `collect_tree()` with
its defaults `parent_id=None`, `depth=0`. -/
def get_activity_tree (db : Store) (max_depth : Int) : List Activity :=
  collect_tree db max_depth none 0

/-- `reachableWithin db n x y`: activity id `y` is reachable from `x` by
following at most `n` parent-to-child hops through the stored `parent_id`
links.  Used to state the depth bound of `get_descendants`. -/
def reachableWithin (db : Store) : Nat → Int → Int → Bool
  | 0, x, y => x == y
  | n + 1, x, y => x == y ||
      (db.activities.filter (fun a => decide (a.parent_id = some x))).any
        (fun c => reachableWithin db n c.id y)

/-- A rose tree of activities, the nesting structure the spec describes for
the activity hierarchy. -/
inductive ATree where
  | node : Activity → List ATree → ATree

/-- Modelled from the spec's words (refinement side): build the explicit
depth-bounded forest under a parent, children in store order. -/
def buildForest (db : Store) (max_depth : Int) (parent_id : Option Int)
    (depth : Int) : List ATree :=
  if h : depth ≥ max_depth then []
  else
    (db.activities.filter (fun a => decide (a.parent_id = parent_id))).map
      (fun a => ATree.node a (buildForest db max_depth (some a.id) (depth + 1)))
termination_by (max_depth - depth).toNat
decreasing_by omega

mutual

/-- Modelled from the spec's words: depth-first pre-order flattening of one
tree — the node, then its children's flattening. -/
def preorderT : ATree → List Activity
  | ATree.node a ts => a :: preorderF ts

/-- Modelled from the spec's words: pre-order flattening of a forest,
sibling order preserved. -/
def preorderF : List ATree → List Activity
  | [] => []
  | t :: ts => preorderT t ++ preorderF ts

end

/-- Concrete store for the spec's chain scenario: activities
`1 → 2 → 3 → 4` (each the child of the previous), one organization linked
to each activity through the link table. -/
def chainDb : Store :=
  ⟨[],
   [⟨1, "a", none⟩, ⟨2, "b", some 1⟩, ⟨3, "c", some 2⟩, ⟨4, "d", some 3⟩],
   [⟨1, "orgA", "", none⟩, ⟨2, "orgB", "", none⟩,
    ⟨3, "orgC", "", none⟩, ⟨4, "orgD", "", none⟩],
   [⟨1, some 1, some 1⟩, ⟨2, some 2, some 2⟩,
    ⟨3, some 3, some 3⟩, ⟨4, some 4, some 4⟩]⟩

/-- Concrete store for the spec's radius scenario: building X at (0,0) and
building Y at (3,4), one organization in each. -/
def locDb : Store :=
  ⟨[⟨1, "x", some 0, some 0⟩, ⟨2, "y", some 3, some 4⟩],
   [],
   [⟨1, "ox", "", some 1⟩, ⟨2, "oy", "", some 2⟩],
   []⟩

/-- The empty store. -/
def emptyDb : Store := ⟨[], [], [], []⟩

/-- Grounding of `buildingWithin` against the source formula: for a
non-negative radius, the squared comparison used in the embedding coincides
with the source's `sqrt(dlat^2 + dlon^2) <= radius` over the reals. -/
theorem buildingWithin_sqrt (b : Building) (blat blon lat lon r : ℚ)
    (hlat : b.lat = some blat) (hlon : b.lon = some blon) (hr : 0 ≤ r) :
    buildingWithin b lat lon r = true ↔
      Real.sqrt (((blat - lat) ^ 2 + (blon - lon) ^ 2 : ℚ) : ℝ) ≤ (r : ℝ) := by
  rw [Real.sqrt_le_left (by exact_mod_cast hr)]
  simp only [buildingWithin, hlat, hlon, decide_eq_true_eq]
  constructor
  · intro h; exact_mod_cast h
  · intro h; exact_mod_cast h

/-- Reachability within any hop budget is reflexive. -/
theorem reachableWithin_refl (db : Store) (n : Nat) (x : Int) :
    reachableWithin db n x x = true := by
  cases n <;> simp [reachableWithin]

/-- Fuel-indexed depth bound for `get_descendants`: anything collected at
recursion depth `depth` is reachable from the root of that call within
`3 - depth` child hops. -/
theorem get_descendants_bound (db : Store) (k : Nat) :
    ∀ (depth : Nat) (A i : Int), 3 - depth ≤ k →
      i ∈ get_descendants db A depth → reachableWithin db (3 - depth) A i = true := by
  induction k with
  | zero =>
    intro depth A i hk hi
    rw [get_descendants] at hi
    have hd : depth > 2 := by omega
    simp [hd] at hi
  | succ k ih =>
    intro depth A i hk hi
    rw [get_descendants] at hi
    by_cases hd : depth > 2
    · simp [hd] at hi
    · simp only [hd, dite_false, List.mem_cons, List.mem_flatMap, List.mem_filter] at hi
      rcases hi with rfl | ⟨c, ⟨hcmem, hcp⟩, hrec⟩
      · exact reachableWithin_refl db _ i
      · have hrc : reachableWithin db (3 - (depth + 1)) c.id i = true :=
          ih (depth + 1) c.id i (by omega) hrec
        have h3 : 3 - depth = (3 - (depth + 1)) + 1 := by omega
        rw [h3]
        simp only [reachableWithin, Bool.or_eq_true, List.any_eq_true]
        exact Or.inr ⟨c, List.mem_filter.mpr ⟨hcmem, hcp⟩, hrc⟩

/-- Flattening a forest built by attaching a subforest to each element of a
list is the flat-map of node-then-subforest flattening. -/
theorem preorderF_map (acts : List Activity) (F : Activity → List ATree) :
    preorderF (acts.map (fun a => ATree.node a (F a))) =
      acts.flatMap (fun a => a :: preorderF (F a)) := by
  induction acts with
  | nil => rfl
  | cons a as ih => simp [preorderF, preorderT, ih]

/-- Fuel-indexed refinement: `collect_tree` equals the pre-order flattening
of the explicitly built forest. -/
theorem collect_tree_eq (db : Store) (k : Nat) :
    ∀ (max_depth depth : Int) (parent_id : Option Int), (max_depth - depth).toNat ≤ k →
      collect_tree db max_depth parent_id depth =
        preorderF (buildForest db max_depth parent_id depth) := by
  induction k with
  | zero =>
    intro md d p hk
    rw [collect_tree, buildForest]
    have hd : d ≥ md := by omega
    simp [hd, preorderF]
  | succ k ih =>
    intro md d p hk
    rw [collect_tree, buildForest]
    by_cases hd : d ≥ md
    · simp [hd, preorderF]
    · simp only [hd, dite_false]
      rw [preorderF_map]
      have hf : (fun act => act :: collect_tree db md (some act.id) (d + 1)) =
          (fun a : Activity => a :: preorderF (buildForest db md (some a.id) (d + 1))) := by
        funext a
        rw [ih md (d + 1) (some a.id) (by omega)]
      rw [hf]

/-- Concrete evaluation of the walker on the chain store. -/
theorem chain_descendants : get_descendants chainDb 1 0 = [1, 2, 3] := by
  simp [get_descendants, chainDb, List.filter]

/-- The IN-filter on a nullable `activity_id` column selects exactly the
rows whose column holds a member of the id list. -/
theorem activity_in_set (l : OrganizationActivity) (ids : List Int) :
    ((match l.activity_id with
      | some a => decide (a ∈ ids)
      | none => false) = true) ↔ ∃ a, l.activity_id = some a ∧ a ∈ ids := by
  cases h : l.activity_id <;> simp [h]

/-- Claim C2: every id returned by the descendant-set walk started at `A` is
reachable from `A` within 3 parent-to-child hops (so an activity at
hop-distance 4 or more never appears), and on the concrete chain
`1 → 2 → 3 → 4` the activity search on id 1 returns exactly the
organizations linked to activities 1, 2 and 3, excluding the one linked
only to activity 4. -/
theorem descendants_depth_bound :
    (∀ (db : Store) (A i : Int), i ∈ get_descendants db A 0 →
        reachableWithin db 3 A i = true) ∧
    search_by_activity_tree chainDb 1 =
      [⟨1, "orgA", "", none⟩, ⟨2, "orgB", "", none⟩, ⟨3, "orgC", "", none⟩] := by
  constructor
  · intro db A i h
    exact get_descendants_bound db 3 0 A i (by norm_num) h
  · simp only [search_by_activity_tree]
    rw [chain_descendants]
    decide

/-- Witness for C2 at a concrete input: activity 3 is collected by the walk
from 1 on the chain store, hence reachable within 3 hops. -/
theorem descendants_depth_bound_witness : reachableWithin chainDb 3 1 3 = true :=
  descendants_depth_bound.1 chainDb 1 3 (by simp [chain_descendants])

/-- Claim C4: forest rendering with `max_depth = 0` yields the empty
sequence, and with `max_depth = 1` exactly the root activities (those with
a null `parent_id`) are emitted, none of their children. -/
theorem tree_depth_cap (db : Store) :
    get_activity_tree db 0 = [] ∧
    get_activity_tree db 1 = db.activities.filter (fun a => decide (a.parent_id = none)) := by
  constructor
  · rw [get_activity_tree, collect_tree]
    simp
  · rw [get_activity_tree, collect_tree]
    have h1 : ∀ p, collect_tree db 1 p 1 = [] := by
      intro p
      rw [collect_tree]
      simp
    simp [h1]

/-- Witness for C4 at a concrete input: rendering the chain store at
`max_depth = 0` emits nothing. -/
theorem tree_depth_cap_witness : get_activity_tree chainDb 0 = [] :=
  (tree_depth_cap chainDb).1

/-- Claim C5: the rendered activity list is exactly the depth-first
pre-order flattening of the depth-bounded forest built from the store —
each node immediately before its depth-eligible children, siblings in store
order, deterministically. -/
theorem tree_is_preorder_flattening (db : Store) (max_depth : Int) :
    get_activity_tree db max_depth = preorderF (buildForest db max_depth none 0) :=
  collect_tree_eq db (max_depth - 0).toNat max_depth 0 none (le_refl _)

/-- Witness for C5 at a concrete input: the chain store's rendering at depth
1 is the flattening of its built forest. -/
theorem tree_is_preorder_flattening_witness :
    get_activity_tree chainDb 1 = preorderF (buildForest chainDb 1 none 0) :=
  tree_is_preorder_flattening chainDb 1

/-- Claim C6: the descendant set of `A` always contains `A` itself, and for
a root id that does not exist in a store with intact parent references the
walk returns exactly the singleton `[A]` without failing. -/
theorem descendant_set_includes_root :
    (∀ (db : Store) (A : Int), A ∈ get_descendants db A 0) ∧
    (∀ (db : Store) (A : Int),
      (∀ a ∈ db.activities, a.id ≠ A) →
      (∀ a ∈ db.activities, a.parent_id = none ∨
         ∃ b ∈ db.activities, a.parent_id = some b.id) →
      get_descendants db A 0 = [A]) := by
  constructor
  · intro db A
    rw [get_descendants]
    simp
  · intro db A hA hwf
    rw [get_descendants]
    have hfilter : db.activities.filter (fun a => decide (a.parent_id = some A)) = [] := by
      rw [List.filter_eq_nil_iff]
      intro a ha
      simp only [decide_eq_true_eq]
      intro hpa
      rcases hwf a ha with hnone | ⟨b, hb, hpb⟩
      · rw [hnone] at hpa
        exact Option.noConfusion hpa
      · rw [hpa] at hpb
        exact hA b hb (Option.some.inj hpb).symm
    simp [hfilter]

/-- Witness for C6 at a concrete input: id 99 does not exist in the chain
store and its descendant set is the singleton. -/
theorem descendant_set_includes_root_witness : get_descendants chainDb 99 0 = [99] :=
  descendant_set_includes_root.2 chainDb 99 (by decide) (by decide)

/-- Claim C1 counterexample: on the chain store, organization 2 is linked
only to activity 2, a child of activity 1.  The `/activities/search`
pipeline returns it for id 1, but the `/organizations/by_activity/1`
handler does not — that endpoint performs no descendant walk, refuting the
claim as stated. -/
theorem by_activity_no_tree_walk :
    (⟨2, "orgB", "", none⟩ : Organization) ∈ search_by_activity_tree chainDb 1 ∧
    (⟨2, "orgB", "", none⟩ : Organization) ∉ orgs_by_activity chainDb 1 := by
  constructor
  · simp only [search_by_activity_tree]
    rw [chain_descendants]
    decide
  · decide

/-- Claim C1 amended: `/organizations/by_activity/{activity_id}` returns
exactly the organizations with a link row whose `activity_id` equals the
given id (direct links only); the descendant-set pipeline the claim
describes is the `/activities/search` endpoint, which returns exactly the
organizations with a link row whose `activity_id` lies in the walker's
depth-bounded id set (IN-set semantics subsume the de-duplication). -/
theorem by_activity_characterization :
    (∀ (db : Store) (aid : Int) (o : Organization),
      o ∈ orgs_by_activity db aid ↔
        o ∈ db.organizations ∧ ∃ l ∈ db.organization_activities,
          l.activity_id = some aid ∧ l.organization_id = some o.id) ∧
    (∀ (db : Store) (aid : Int) (o : Organization),
      o ∈ search_by_activity_tree db aid ↔
        o ∈ db.organizations ∧ ∃ l ∈ db.organization_activities,
          (∃ a, l.activity_id = some a ∧ a ∈ get_descendants db aid 0) ∧
          l.organization_id = some o.id) := by
  constructor
  · intro db aid o
    simp only [orgs_by_activity, List.mem_filter, decide_eq_true_eq, List.mem_map,
      List.mem_filter]
    tauto
  · intro db aid o
    simp only [search_by_activity_tree, List.mem_filter, decide_eq_true_eq, List.mem_map,
      List.mem_filter, activity_in_set]
    tauto

/-- Witness for the amended C1 at a concrete input: organization 1 is
directly linked to activity 1 on the chain store. -/
theorem by_activity_characterization_witness :
    (⟨1, "orgA", "", none⟩ : Organization) ∈ orgs_by_activity chainDb 1 :=
  (by_activity_characterization.1 chainDb 1 ⟨1, "orgA", "", none⟩).mpr
    ⟨by decide, ⟨1, some 1, some 1⟩, by decide, rfl, rfl⟩

/-- A building with a null latitude or longitude never passes the radius
filter: the SQL distance expression is NULL there. -/
theorem buildingWithin_none (b : Building) (lat lon r : ℚ)
    (h : b.lat = none ∨ b.lon = none) : buildingWithin b lat lon r = false := by
  rcases h with h | h
  · simp [buildingWithin, h]
  · cases hl : b.lat <;> simp [buildingWithin, h, hl]

/-- Claim C3: the radius comparison is inclusive — a building whose squared
Euclidean distance to the query point equals the squared radius is kept, so
its organizations are returned; concretely, with X at (0,0) and Y at (3,4),
radius 5 from the origin returns the organizations of both, radius 4.99
only X's. -/
theorem radius_boundary_inclusive :
    (∀ (db : Store) (b : Building) (blat blon lat lon r : ℚ),
      b ∈ db.buildings → b.lat = some blat → b.lon = some blon → 0 < r →
      (blat - lat) ^ 2 + (blon - lon) ^ 2 = r ^ 2 →
      ∀ o ∈ db.organizations, o.building_id = some b.id →
        o ∈ orgs_by_location db lat lon r) ∧
    orgs_by_location locDb 0 0 5 = [⟨1, "ox", "", some 1⟩, ⟨2, "oy", "", some 2⟩] ∧
    orgs_by_location locDb 0 0 (499 / 100) = [⟨1, "ox", "", some 1⟩] := by
  refine ⟨?_, ?_, ?_⟩
  · intro db b blat blon lat lon r hb hlat hlon hr hdist o ho hob
    simp only [orgs_by_location, List.mem_flatMap]
    refine ⟨b, List.mem_filter.mpr ⟨hb, ?_⟩, List.mem_filter.mpr ⟨ho, by simp [hob]⟩⟩
    simp [buildingWithin, hlat, hlon, hdist]
  · have hx : buildingWithin ⟨1, "x", some 0, some 0⟩ 0 0 5 = true := by
      simp only [buildingWithin, decide_eq_true_eq]
      norm_num
    have hy : buildingWithin ⟨2, "y", some 3, some 4⟩ 0 0 5 = true := by
      simp only [buildingWithin, decide_eq_true_eq]
      norm_num
    simp [orgs_by_location, locDb, List.filter_cons, hx, hy]
  · have hx : buildingWithin ⟨1, "x", some 0, some 0⟩ 0 0 (499 / 100) = true := by
      simp only [buildingWithin, decide_eq_true_eq]
      norm_num
    have hy : buildingWithin ⟨2, "y", some 3, some 4⟩ 0 0 (499 / 100) = false := by
      simp only [buildingWithin]
      rw [decide_eq_false_iff_not]
      norm_num
    simp [orgs_by_location, locDb, List.filter_cons, hx, hy]

/-- Witness for C3 at a concrete input: building Y at (3,4) sits at distance
exactly 5 from the origin and its organization is returned for radius 5. -/
theorem radius_boundary_inclusive_witness :
    (⟨2, "oy", "", some 2⟩ : Organization) ∈ orgs_by_location locDb 0 0 5 :=
  radius_boundary_inclusive.1 locDb ⟨2, "y", some 3, some 4⟩ 3 4 0 0 5 (by simp [locDb])
    rfl rfl (by norm_num) (by norm_num) ⟨2, "oy", "", some 2⟩ (by simp [locDb]) rfl

/-- Claim C7: a building with a null latitude or longitude is never selected
by the radius query, and consequently every organization the by-location
query returns comes from a selected building with both coordinates
present. -/
theorem null_coords_never_selected :
    (∀ (b : Building) (lat lon r : ℚ), b.lat = none ∨ b.lon = none →
      buildingWithin b lat lon r = false) ∧
    (∀ (db : Store) (lat lon r : ℚ) (o : Organization),
      o ∈ orgs_by_location db lat lon r →
      ∃ b ∈ db.buildings, o.building_id = some b.id ∧
        buildingWithin b lat lon r = true ∧ b.lat ≠ none ∧ b.lon ≠ none) := by
  constructor
  · exact buildingWithin_none
  · intro db lat lon r o ho
    simp only [orgs_by_location, List.mem_flatMap, List.mem_filter,
      decide_eq_true_eq] at ho
    rcases ho with ⟨b, ⟨hbmem, hbw⟩, hobs, hob⟩
    refine ⟨b, hbmem, hob, hbw, ?_, ?_⟩
    · intro hnone
      rw [buildingWithin_none b lat lon r (Or.inl hnone)] at hbw
      exact Bool.noConfusion hbw
    · intro hnone
      rw [buildingWithin_none b lat lon r (Or.inr hnone)] at hbw
      exact Bool.noConfusion hbw

/-- Witness for C7 at a concrete input: a building with null latitude fails
the radius filter. -/
theorem null_coords_never_selected_witness :
    buildingWithin ⟨1, "x", none, some 0⟩ 0 0 1 = false :=
  null_coords_never_selected.1 ⟨1, "x", none, some 0⟩ 0 0 1 (Or.inl rfl)

/-- Claim C8: the by-name search with the empty substring returns every
organization in the store — the empty pattern occurs in every
(case-folded) name. -/
theorem by_name_empty_returns_all (db : Store) :
    orgs_by_name db "" = db.organizations := by
  have h : ∀ hay, hasSub (lowerStr "") hay = true := by
    intro hay
    cases hay <;> simp [hasSub, startsWith, lowerStr]
  rw [orgs_by_name]
  exact List.filter_eq_self.mpr (fun o _ => h (lowerStr o.name))

/-- Witness for C8 at a concrete input: the empty-substring search on the
chain store returns all four organizations. -/
theorem by_name_empty_returns_all_witness :
    orgs_by_name chainDb "" = chainDb.organizations :=
  by_name_empty_returns_all chainDb

/-- Claim C9: a by-id lookup with no matching organization produces the
distinct not-found signal (HTTP 404), never an empty list and never a
crash, while a list-returning operation with no matches returns the empty
sequence. -/
theorem by_id_not_found (db : Store) (org_id bid : Int) :
    ((∀ o ∈ db.organizations, o.id ≠ org_id) →
      get_organization db org_id = Except.error 404) ∧
    ((∀ o ∈ db.organizations, o.building_id ≠ some bid) →
      orgs_by_building db bid = []) := by
  constructor
  · intro h
    have hfind : db.organizations.find? (fun o => decide (o.id = org_id)) = none := by
      rw [List.find?_eq_none]
      intro o ho
      simp [h o ho]
    simp only [get_organization, hfind]
  · intro h
    rw [orgs_by_building, List.filter_eq_nil_iff]
    intro o ho
    simp [h o ho]

/-- Witness for C9 at a concrete input: looking up id 1 in the empty store
returns the 404 signal. -/
theorem by_id_not_found_witness : get_organization emptyDb 1 = Except.error 404 :=
  (by_id_not_found emptyDb 1 1).1 (by simp [emptyDb])

/-- Claim C10: an organization whose building reference is null is never
returned by the by-building query (its NULL reference never equals a
concrete id) nor by the by-location query (which only unions organizations
whose reference equals a kept building's id). -/
theorem null_building_excluded (db : Store) (bid : Int) (lat lon r : ℚ)
    (o : Organization) (h : o.building_id = none) :
    o ∉ orgs_by_building db bid ∧ o ∉ orgs_by_location db lat lon r := by
  constructor
  · intro hmem
    rw [orgs_by_building] at hmem
    have hdec := (List.mem_filter.mp hmem).2
    rw [h] at hdec
    simp at hdec
  · intro hmem
    simp only [orgs_by_location, List.mem_flatMap, List.mem_filter] at hmem
    rcases hmem with ⟨b, ⟨hb1, hb2⟩, ho1, hob⟩
    rw [h] at hob
    simp at hob

/-- Witness for C10 at a concrete input: an organization with a null
building reference is not in the by-building result of the empty store. -/
theorem null_building_excluded_witness :
    (⟨1, "o", "", none⟩ : Organization) ∉ orgs_by_building emptyDb 1 :=
  (null_building_excluded emptyDb 1 0 0 1 ⟨1, "o", "", none⟩ rfl).1

end RestApi
